import Mathlib

/-!
Verification of the NeetiManthan comment-processing pipeline.

This file gives a shallow embedding of two components of the source:

* `src/app/tools/clause_linker/main.py` — the `ClauseLinker` class with its
  three-tier matching cascade (direct regex mentions, semantic embedding
  similarity, fuzzy lexical Jaccard overlap); and
* `src/app/services/coordinator.py` — the `CoordinatorAgent.process_comment`
  pipeline (ingest → clause-link → classify → quality gate → summarize) with
  its storage transaction semantics.

Modelling conventions:

* Python floats are modelled as exact rationals `ℚ`; all thresholds in the
  source (0.3, 0.5, 0.1, 0.7) are exactly representable.
* External I/O (tool HTTP calls, the database read of a draft's clauses, the
  sentence-transformer `encode` call) is modelled by oracle functions supplied
  as parameters; a Python `None`/exception outcome is an `Option`/`Except`
  failure value.
* numpy cosine similarity involves square roots, which are not rational, so
  the similarity *value* is an oracle parameter `cosSim`; the cascade logic
  around it (thresholding, sorting, capping) is embedded concretely.
* SQLAlchemy session semantics: `flush` makes writes visible inside the
  session only; `commit` makes the pending state durable; closing a session
  without committing rolls the transaction back.  `process_comment` commits
  exactly once, at the end of a fully successful run.
-/

namespace NeetiManthan

/-! ## String helpers (Python `str` operations on ASCII-ish text) -/

/-- Python `str.lower()` (per character, adequate for ASCII). -/
def strLower (s : String) : String := String.mk (s.data.map Char.toLower)

/-- Python `small in big` for strings: contiguous substring containment. -/
def pyIn (needle haystack : String) : Bool :=
  haystack.data.tails.any (fun t => needle.data.isPrefixOf t)

/-- Split on whitespace runs, dropping empty pieces: Python `str.split()`. -/
def splitWsAux : List Char → List Char → List String
  | [], acc => if acc.isEmpty then [] else [String.mk acc.reverse]
  | c :: cs, acc =>
    if c.isWhitespace then
      if acc.isEmpty then splitWsAux cs [] else String.mk acc.reverse :: splitWsAux cs []
    else splitWsAux cs (c :: acc)

/-- Python `set(s.lower().split())`, as a duplicate-free list of words. -/
def pySetWords (s : String) : List String := (splitWsAux (strLower s).data []).dedup

/-- Python `str.strip()`. -/
def pyStrip (s : String) : String :=
  String.mk (((s.data.dropWhile Char.isWhitespace).reverse.dropWhile Char.isWhitespace).reverse)

/-- Replace each whitespace run by a single space: `re.sub(r'\s+', ' ', ·)`. -/
def collapseWsAux : Bool → List Char → List Char
  | _, [] => []
  | inWs, c :: cs =>
    if c.isWhitespace then
      if inWs then collapseWsAux true cs else ' ' :: collapseWsAux true cs
    else c :: collapseWsAux false cs

/-! ## Clause Linker: data types (src/app/tools/clause_linker/main.py) -/

/-- A `Clause` row as read by `get_draft_clauses`: ref, text, optional embedding. -/
structure Clause where
  ref : String
  text : String
  embedding : Option (List ℚ)
deriving DecidableEq, Repr

/-- The `ClauseCandidate` pydantic model. -/
structure ClauseCandidate where
  clause_ref : String
  clause_text : String
  similarity_score : ℚ
  match_type : String
deriving DecidableEq, Repr

/-- The `LinkResponse` pydantic model. -/
structure LinkResponse where
  clause_candidates : List String
  detailed_matches : List ClauseCandidate
  confidence : ℚ
deriving DecidableEq, Repr

/-- Oracles for the Linker's external effects: whether the sentence-transformer
model loaded, the (fallible) `encode` call, the numpy cosine-similarity value,
and the (fallible) database read of a draft's clauses. -/
structure LinkerEnv where
  modelLoaded : Bool
  encode : String → Except String (List ℚ)
  cosSim : List ℚ → List ℚ → ℚ
  dbClauses : String → Except String (List Clause)

/-- `get_draft_clauses`: the internal `try/except` turns a database failure
into an empty clause list. -/
def getDraftClauses (env : LinkerEnv) (draft_id : String) : List Clause :=
  match env.dbClauses draft_id with
  | .ok cs => cs
  | .error _ => []

/-- `clause['text'][:200] + "..." if len(clause['text']) > 200 else clause['text']`. -/
def truncClauseText (t : String) : String :=
  if t.length > 200 then String.mk (t.data.take 200) ++ "..." else t

/-! ## Sorting: Python's stable `list.sort(key=score, reverse=True)` -/

/-- Stable insertion into a descending-by-score list. -/
def insertDesc (x : ClauseCandidate) : List ClauseCandidate → List ClauseCandidate
  | [] => [x]
  | y :: ys => if x.similarity_score < y.similarity_score then y :: insertDesc x ys else x :: y :: ys

/-- Stable sort, descending by `similarity_score`. -/
def sortDesc : List ClauseCandidate → List ClauseCandidate
  | [] => []
  | x :: xs => insertDesc x (sortDesc xs)

/-- Python `max(c.similarity_score for c in l)` (only ever used on nonempty `l`). -/
def pyMaxScore : List ClauseCandidate → ℚ
  | [] => 0
  | c :: cs => cs.foldl (fun m x => max m x.similarity_score) c.similarity_score

/-! ## Tier 1 helper: case-insensitive substring match in either direction -/

/-- `mention.lower() in clause['ref'].lower() or clause['ref'].lower() in mention.lower()`. -/
def refMatch (mention : String) (c : Clause) : Bool :=
  pyIn (strLower mention) (strLower c.ref) || pyIn (strLower c.ref) (strLower mention)

/-- The exact-tier candidate built for a matched clause (score 1.0, tag `exact`). -/
def mkExactCandidate (c : Clause) : ClauseCandidate :=
  { clause_ref := c.ref, clause_text := truncClauseText c.text,
    similarity_score := 1, match_type := "exact" }

/-- The nested loop of step 3 of `link_comment_to_clauses`: for each mention,
for each clause, append an exact candidate when `refMatch` holds. -/
def exactCandidates (mentions : List String) (clauses : List Clause) : List ClauseCandidate :=
  mentions.flatMap (fun m =>
    clauses.filterMap (fun c => if refMatch m c then some (mkExactCandidate c) else none))

/-! ## Tier 2: `semantic_similarity_search` -/

/-- `semantic_similarity_search`: requires the model to be loaded and a
successful `encode`; keeps clauses with a non-null, non-empty stored embedding
whose cosine similarity exceeds the 0.3 threshold, tagged `semantic`, sorted
descending, capped at `max_candidates = 5`.  An `encode` exception is caught
and yields `[]`. -/
def semanticSimilaritySearch (env : LinkerEnv) (query_text : String)
    (clauses : List Clause) : List ClauseCandidate :=
  if env.modelLoaded = false ∨ clauses = [] then []
  else
    match env.encode query_text with
    | .error _ => []
    | .ok query_embedding =>
      let candidates := clauses.filterMap (fun c =>
        match c.embedding with
        | none => none
        | some e =>
          if e = [] then none
          else
            let similarity := env.cosSim query_embedding e
            if mkRat 3 10 < similarity then
              some { clause_ref := c.ref, clause_text := truncClauseText c.text,
                     similarity_score := similarity, match_type := "semantic" }
            else none)
      (sortDesc candidates).take 5

/-! ## Tier 3: `fuzzy_text_matching` -/

/-- The body of the fuzzy loop for one clause: word-set Jaccard similarity
between the query words and the clause's words; a candidate is kept when the
union is nonempty and the Jaccard ratio exceeds 0.1. -/
def fuzzyCandidate (query_words : List String) (c : Clause) : Option ClauseCandidate :=
  let clause_words := pySetWords c.text
  let inter := (query_words.filter (fun w => w ∈ clause_words)).length
  let uni := (query_words ++ clause_words.filter (fun w => w ∉ query_words)).length
  if 0 < uni then
    let jaccard_sim : ℚ := mkRat inter uni  -- inter / uni (uni ≠ 0 on this branch)
    if mkRat 1 10 < jaccard_sim then
      some { clause_ref := c.ref, clause_text := truncClauseText c.text,
             similarity_score := jaccard_sim, match_type := "fuzzy" }
    else none
  else none

/-- `fuzzy_text_matching`: Jaccard-filter every clause, sort descending,
cap at 5. -/
def fuzzyTextMatching (query_text : String) (clauses : List Clause) : List ClauseCandidate :=
  let query_words := pySetWords query_text
  (sortDesc (clauses.filterMap (fuzzyCandidate query_words))).take 5

/-! ## `find_direct_mentions`: the five regex patterns

The source scans the text with `re.finditer` for five patterns:

1. `(?i)(?:section|rule|chapter|part)\s+(\d+(?:\(\d+\))*(?:\([a-z]+\))*)`
2. `(?i)(?:clause|para|paragraph)\s+(\d+(?:\.\d+)*)`
3. `\b(\d+\.\d+(?:\.\d+)*)\b`
4. `\((\d+)\)\(([a-z]+)\)`
5. `\b(\d+)\([a-z]+\)`

Each is embedded as a hand-rolled matcher with Python `re` semantics
(leftmost, non-overlapping scan; greedy repetition; full backtracking over the
keyword alternation; the one place backtracking into a star can matter is the
trailing `\b` of pattern 3, handled explicitly).  A matcher takes the previous
character (for `\b`) and the remaining characters, and returns the captured
mention together with the unconsumed rest on success. -/

/-- Python regex `\w` (word character), ASCII fragment. -/
def isWordChar (c : Char) : Bool := c.isAlphanum || c = '_'

/-- `[a-z]` (case-sensitive, as in patterns 4 and 5). -/
def isLowerAlpha (c : Char) : Bool := 'a' ≤ c && c ≤ 'z'

/-- `[a-z]` under `(?i)` (patterns 1): also matches `A`–`Z`. -/
def isAlphaCI (c : Char) : Bool := isLowerAlpha c.toLower

/-- `\b` at the start of a match: the previous character (if any) is not a
word character. -/
def boundaryBefore : Option Char → Bool
  | none => true
  | some c => !isWordChar c

/-- `\b` at the end of a match: the next character (if any) is not a word
character. -/
def boundaryAfter : List Char → Bool
  | [] => true
  | c :: _ => !isWordChar c

/-- Case-insensitive literal prefix: consumes `kw` (given lowercase) from the
head of the input. -/
def ciLiteral : List Char → List Char → Option (List Char)
  | [], cs => some cs
  | _ :: _, [] => none
  | k :: ks, c :: cs => if c.toLower = k then ciLiteral ks cs else none

/-- Greedy `p+`: one or more characters satisfying `p`, or failure. -/
def takeWhile1 (p : Char → Bool) (cs : List Char) : Option (List Char × List Char) :=
  let t := cs.takeWhile p
  if t.isEmpty then none else some (t, cs.drop t.length)

/-- One `\(body\)` unit where the body is `p+`; returns the consumed characters
(including the parentheses) and the rest. -/
def parenUnit (p : Char → Bool) (cs : List Char) : Option (List Char × List Char) :=
  match cs with
  | '(' :: rest =>
    match takeWhile1 p rest with
    | some (body, rest1) =>
      match rest1 with
      | ')' :: rest2 => some ('(' :: (body ++ [')']), rest2)
      | _ => none
    | none => none
  | _ => none

/-- One `\.\d+` unit (pattern 2 and 3 repetitions). -/
def dotDigitsUnit (cs : List Char) : Option (List Char × List Char) :=
  match cs with
  | '.' :: rest =>
    match takeWhile1 Char.isDigit rest with
    | some (ds, rest1) => some ('.' :: ds, rest1)
    | none => none
  | _ => none

/-- Greedy Kleene star over a unit parser (fuel-bounded; every unit used here
consumes at least one character, so fuel `= length input` suffices). -/
def starUnits (unit : List Char → Option (List Char × List Char)) :
    Nat → List Char → List (List Char) × List Char
  | 0, cs => ([], cs)
  | fuel + 1, cs =>
    match unit cs with
    | some (u, rest) =>
      let (us, r) := starUnits unit fuel rest
      (u :: us, r)
    | none => ([], cs)

/-- Try the regex alternation `(?:kw₁|kw₂|…)` followed by `tail`, with full
backtracking over the alternatives (needed because `para` is a prefix of
`paragraph`). -/
def tryAlternatives (alts : List (List Char)) (tail : List Char → Option (String × List Char))
    (cs : List Char) : Option (String × List Char) :=
  match alts with
  | [] => none
  | kw :: rest =>
    match ciLiteral kw cs with
    | some r0 =>
      match tail r0 with
      | some res => some res
      | none => tryAlternatives rest tail cs
    | none => tryAlternatives rest tail cs

/-- After a pattern-1 keyword: `\s+` then the capture
`\d+(?:\(\d+\))*(?:\([a-z]+\))*` (greedy; the group excludes the keyword). -/
def p1Tail (r0 : List Char) : Option (String × List Char) :=
  match takeWhile1 Char.isWhitespace r0 with
  | none => none
  | some (_, r1) =>
    match takeWhile1 Char.isDigit r1 with
    | none => none
    | some (ds, r2) =>
      let (dunits, r3) := starUnits (parenUnit Char.isDigit) r2.length r2
      let (lunits, r4) := starUnits (parenUnit isAlphaCI) r3.length r3
      some (String.mk (ds ++ dunits.flatten ++ lunits.flatten), r4)

/-- Pattern 1: `(?i)(?:section|rule|chapter|part)\s+(\d+(?:\(\d+\))*(?:\([a-z]+\))*)`.
No word boundary before the keyword. -/
def matchP1 (_ : Option Char) (cs : List Char) : Option (String × List Char) :=
  tryAlternatives ["section".data, "rule".data, "chapter".data, "part".data] p1Tail cs

/-- After a pattern-2 keyword: `\s+` then the capture `\d+(?:\.\d+)*`. -/
def p2Tail (r0 : List Char) : Option (String × List Char) :=
  match takeWhile1 Char.isWhitespace r0 with
  | none => none
  | some (_, r1) =>
    match takeWhile1 Char.isDigit r1 with
    | none => none
    | some (ds, r2) =>
      let (units, r3) := starUnits dotDigitsUnit r2.length r2
      some (String.mk (ds ++ units.flatten), r3)

/-- Pattern 2: `(?i)(?:clause|para|paragraph)\s+(\d+(?:\.\d+)*)`. -/
def matchP2 (_ : Option Char) (cs : List Char) : Option (String × List Char) :=
  tryAlternatives ["clause".data, "para".data, "paragraph".data] p2Tail cs

/-- Pattern 3: `\b(\d+\.\d+(?:\.\d+)*)\b`.  The trailing `\b` may force the
greedy star to give back exactly one `\.\d+` unit (after which the next
character is a dot, so the boundary always holds); if the star is empty and the
boundary fails, no shorter split of the mandatory `\d+\.\d+` can restore a
boundary, so the position fails. -/
def matchP3 (prev : Option Char) (cs : List Char) : Option (String × List Char) :=
  if boundaryBefore prev = false then none
  else
    match takeWhile1 Char.isDigit cs with
    | none => none
    | some (ds1, r1) =>
      match r1 with
      | '.' :: r2 =>
        match takeWhile1 Char.isDigit r2 with
        | none => none
        | some (ds2, r3) =>
          let (units, r4) := starUnits dotDigitsUnit r3.length r3
          if boundaryAfter r4 then
            some (String.mk (ds1 ++ '.' :: ds2 ++ units.flatten), r4)
          else
            match units.getLast? with
            | some u => some (String.mk (ds1 ++ '.' :: ds2 ++ units.dropLast.flatten), u ++ r4)
            | none => none
      | _ => none

/-- Pattern 4: `\((\d+)\)\(([a-z]+)\)`; the mention is `g1(g2)`. -/
def matchP4 (_ : Option Char) (cs : List Char) : Option (String × List Char) :=
  match cs with
  | '(' :: r0 =>
    match takeWhile1 Char.isDigit r0 with
    | none => none
    | some (ds, r1) =>
      match r1 with
      | ')' :: '(' :: r2 =>
        match takeWhile1 isLowerAlpha r2 with
        | none => none
        | some (ls, r3) =>
          match r3 with
          | ')' :: r4 => some (String.mk (ds ++ '(' :: (ls ++ [')'])), r4)
          | _ => none
      | _ => none
  | _ => none

/-- Pattern 5: `\b(\d+)\([a-z]+\)`; the single capture group is just the
digits, so the parenthesised letters are consumed but not part of the mention. -/
def matchP5 (prev : Option Char) (cs : List Char) : Option (String × List Char) :=
  if boundaryBefore prev = false then none
  else
    match takeWhile1 Char.isDigit cs with
    | none => none
    | some (ds, r1) =>
      match r1 with
      | '(' :: r2 =>
        match takeWhile1 isLowerAlpha r2 with
        | none => none
        | some (_, r3) =>
          match r3 with
          | ')' :: r4 => some (String.mk ds, r4)
          | _ => none
      | _ => none

/-- `re.finditer` scan: at each position try the matcher; on success emit the
capture and resume after the consumed span, else advance one character.
Fuel-bounded (every pattern consumes at least one character). -/
def scanPattern (m : Option Char → List Char → Option (String × List Char)) :
    Option Char → List Char → Nat → List String
  | _, _, 0 => []
  | prev, cs, fuel + 1 =>
    match cs with
    | [] => []
    | c :: rest =>
      match m prev cs with
      | some (mention, rest1) =>
        let consumed := cs.take (cs.length - rest1.length)
        let prev1 := match consumed.getLast? with
          | some d => some d
          | none => prev
        mention :: scanPattern m prev1 rest1 fuel
      | none => scanPattern m (some c) rest fuel

/-- `re.sub(r'(?i)kw\s+', canon, s)` for a literal keyword `kw`: replace each
case-insensitive occurrence of the keyword followed by a whitespace run with
the canonical spelling (which carries its own trailing space). -/
def subKeywordAux (kw canon : List Char) : Nat → List Char → List Char
  | 0, cs => cs
  | fuel + 1, cs =>
    match cs with
    | [] => []
    | c :: rest =>
      match ciLiteral kw cs with
      | some r0 =>
        match takeWhile1 Char.isWhitespace r0 with
        | some (_, r1) => canon ++ subKeywordAux kw canon fuel r1
        | none => c :: subKeywordAux kw canon fuel rest
      | none => c :: subKeywordAux kw canon fuel rest

/-- One keyword-casing substitution of `normalize_reference`. -/
def subKeyword (kw canon : String) (s : String) : String :=
  String.mk (subKeywordAux kw.data canon.data (s.data.length + 1) s.data)

/-- `normalize_reference`: empty stays empty; otherwise strip, collapse
whitespace runs, and canonicalise the four keyword prefixes. -/
def normalizeReference (ref : String) : String :=
  if ref = "" then ""
  else
    let r1 := String.mk (collapseWsAux false (pyStrip ref).data)
    let r2 := subKeyword "section" "Section " r1
    let r3 := subKeyword "rule" "Rule " r2
    let r4 := subKeyword "chapter" "Chapter " r3
    subKeyword "part" "Part " r4

/-- The fixed pattern list of `ClauseLinker.__init__`, in source order. -/
def allMatchers : List (Option Char → List Char → Option (String × List Char)) :=
  [matchP1, matchP2, matchP3, matchP4, matchP5]

/-- `find_direct_mentions`: run every pattern over the text in order,
normalize each raw capture, and accumulate non-empty mentions without
duplicates (first occurrence wins). -/
def findDirectMentions (text : String) : List String :=
  let cs := text.data
  allMatchers.foldl (fun mentions m =>
    (scanPattern m none cs (cs.length + 1)).foldl (fun ms raw =>
      let mention := normalizeReference raw
      if mention ≠ "" ∧ mention ∉ ms then ms ++ [mention] else ms) mentions) []

/-! ## `link_comment_to_clauses`: the cascade -/

/-- `final_clause_refs` accumulation: append each candidate ref not already
present (first occurrence wins). -/
def dedupAppend (acc : List String) (refs : List String) : List String :=
  refs.foldl (fun a r => if r ∈ a then a else a ++ [r]) acc

/-- Instrumented run of `link_comment_to_clauses`: the response together with
the intermediate values of the cascade (which tiers ran and what each
produced).  The `response` field is exactly what the source returns. -/
structure LinkRun where
  response : LinkResponse
  directMentions : List String
  clauses : List Clause
  exactCands : List ClauseCandidate
  semanticRan : Bool
  semanticCands : List ClauseCandidate
  fuzzyRan : Bool
  fuzzyCands : List ClauseCandidate
deriving Repr

/-- `link_comment_to_clauses`.  Step 1 extracts direct mentions; step 2 reads
the draft's clauses (empty on a read failure); an empty clause list returns
the empty response immediately.  Step 3 matches mentions against refs (score
1.0, tag `exact`); step 4 runs the semantic tier only when step 3 produced no
candidates; step 5 runs the fuzzy tier when there are still no candidates or
the best score so far is below 0.5.  Confidence is `min(max score, 1.0)` over
all accumulated candidates, `0.0` if there are none; the returned candidate
and ref lists are capped at `max_candidates = 5`. -/
def linkRun (env : LinkerEnv) (text : String) (draft_id : String) : LinkRun :=
  let direct_mentions := findDirectMentions text
  let clauses := getDraftClauses env draft_id
  if clauses = [] then
    { response := { clause_candidates := [], detailed_matches := [], confidence := 0 }
      directMentions := direct_mentions, clauses := clauses
      exactCands := [], semanticRan := false, semanticCands := []
      fuzzyRan := false, fuzzyCands := [] }
  else
    let exact := exactCandidates direct_mentions clauses
    let refs1 := dedupAppend [] (exact.map (fun c => c.clause_ref))
    let semanticRan := exact.isEmpty
    let semanticCands := if semanticRan then semanticSimilaritySearch env text clauses else []
    let cands1 := exact ++ semanticCands
    let refs2 := dedupAppend refs1 (semanticCands.map (fun c => c.clause_ref))
    let fuzzyRan := cands1.isEmpty || decide (pyMaxScore cands1 < mkRat 1 2)
    let fuzzyCands := if fuzzyRan then fuzzyTextMatching text clauses else []
    let cands2 := cands1 ++ fuzzyCands
    let refs3 := dedupAppend refs2 (fuzzyCands.map (fun c => c.clause_ref))
    let confidence := if cands2.isEmpty then 0 else min (pyMaxScore cands2) 1
    { response := { clause_candidates := refs3.take 5
                    detailed_matches := cands2.take 5
                    confidence := confidence }
      directMentions := direct_mentions, clauses := clauses
      exactCands := exact, semanticRan := semanticRan, semanticCands := semanticCands
      fuzzyRan := fuzzyRan, fuzzyCands := fuzzyCands }

/-- The Linker's public result. -/
def linkCommentToClauses (env : LinkerEnv) (text : String) (draft_id : String) : LinkResponse :=
  (linkRun env text draft_id).response

/-! ## Coordinator data model (src/app/models, as used by the orchestrator) -/

/-- A `CommentRaw` row. -/
structure CommentRaw where
  id : String
  draft_id : String
  text_raw : String
  lang : Option String
  pii_masked : Option String
deriving DecidableEq, Repr

/-- A `CommentProcessed` row. -/
structure CommentProcessed where
  comment_id : String
  text_normalized : String
  clause_guesses : List String
  embedding : Option (List ℚ)
deriving DecidableEq, Repr

/-- A `Prediction` row. -/
structure Prediction where
  comment_id : String
  sentiment_label : Option String
  sentiment_score : Option ℚ
  sentiment_intensity : Option ℚ
  stance : Option String
  aspects : List String
  confidence : ℚ
  model_version : String
  ci_low : Option ℚ
  ci_high : Option ℚ
deriving DecidableEq, Repr

/-- A `Summary` row. -/
structure Summary where
  comment_id : String
  summary_text : Option String
  confidence : ℚ
  model_version : String
deriving DecidableEq, Repr

/-- An `Audit` row; `change_data` for the one audit the orchestrator writes is
the pair `{confidence, threshold}`, modelled as two fields. -/
structure Audit where
  entity : String
  entity_id : String
  change_type : String
  change_confidence : ℚ
  change_threshold : ℚ
  user_id : String
deriving DecidableEq, Repr

/-- Durable storage contents (the tables the orchestrator touches). -/
structure Storage where
  comments : List CommentRaw
  processed : List CommentProcessed
  predictions : List Prediction
  summaries : List Summary
  audits : List Audit
deriving DecidableEq, Repr

/-! ## Tool client results (JSON payloads, fields optional as `dict.get`) -/

/-- Ingest `/process` response fields used by the orchestrator. -/
structure IngestResult where
  pii_masked : Option String
  language : Option String
  normalized_text : Option String
  embedding : Option (List ℚ)
deriving DecidableEq, Repr

/-- ClauseLink `/link` response field used by the orchestrator. -/
structure LinkToolResult where
  clause_candidates : Option (List String)
deriving DecidableEq, Repr

/-- Classify `/classify` response fields. -/
structure ClassifyResult where
  sentiment_label : Option String
  sentiment_score : Option ℚ
  sentiment_intensity : Option ℚ
  stance : Option String
  aspects : Option (List String)
  confidence : Option ℚ
  model_version : Option String
  ci_low : Option ℚ
  ci_high : Option ℚ
deriving DecidableEq, Repr

/-- Summarize `/summarize` response fields used by the orchestrator. -/
structure SummarizeResult where
  summary : Option String
  confidence : Option ℚ
  model_version : Option String
deriving DecidableEq, Repr

/-- The four tool clients (`_call_ingest_tool` etc.): each returns `none` on
an unreachable service, a non-200 response, a timeout, or a falsy payload —
the `try/except … return None` pattern of the source. -/
structure Tools where
  ingest : String → Option IngestResult
  clause_linker : String → String → Option LinkToolResult
  classify : String → Option String → Option ClassifyResult
  summarize : String → Option String → Option SummarizeResult

/-- The dictionaries returned by `process_comment`. -/
inductive Outcome where
  | already_processed (comment_id : String)
  | success (comment_id : String) (confidence : ℚ)
      (sentiment : Option String) (stance : Option String) (clauses : List String)
  | error (comment_id : String) (error_type : String) (details : String)
deriving DecidableEq, Repr

/-- Result of one `process_comment` run: the returned outcome, the durable
storage after the session is closed (rolled back unless the run committed),
and the list of tool endpoints invoked, in order. -/
structure RunResult where
  outcome : Outcome
  storage : Storage
  calls : List String
deriving DecidableEq, Repr

/-- Replace the first element satisfying `p` (SQLAlchemy `.first()` row update). -/
def replaceFirst (p : α → Bool) (f : α → α) : List α → List α
  | [] => []
  | x :: xs => if p x then f x :: xs else x :: replaceFirst p f xs

/-- `CoordinatorAgent.process_comment`.

The pipeline: not-found raises `ValueError`, which the outer handler converts
to a generic `processing_failed` error; the idempotency check returns
`already_processed` before any tool call; ingest failure aborts with
`ingest_failed`; a clause-linker failure is treated as an empty candidate
list; the `CommentProcessed` row is upserted and flushed (visible in-session
only); classify failure aborts with `classify_failed`; the `Prediction` row is
upserted; a confidence below the threshold appends a `low_confidence` audit;
summarization runs when `confidence ≥ threshold` or `force_reprocess`, and its
failure is swallowed; a single `db.commit()` at the end makes all writes of a
successful run durable.  Every abort path returns before that commit, so the
session close rolls its writes back and the durable storage is unchanged. -/
def processComment (confidence_threshold : ℚ) (tools : Tools) (db : Storage)
    (comment_id : String) (force_reprocess : Bool) : RunResult :=
  match db.comments.find? (fun c => c.id == comment_id) with
  | none =>
    { outcome := .error comment_id "processing_failed" ("Comment " ++ comment_id ++ " not found")
      storage := db, calls := [] }
  | some comment =>
    let existing_processed := db.processed.find? (fun p => p.comment_id == comment.id)
    if existing_processed.isSome ∧ ¬force_reprocess then
      { outcome := .already_processed comment_id, storage := db, calls := [] }
    else
      match tools.ingest comment.text_raw with
      | none =>
        { outcome := .error comment_id "ingest_failed" "", storage := db, calls := ["ingest"] }
      | some ingest_result =>
        let pii_masked := ingest_result.pii_masked.getD comment.text_raw
        let lang := ingest_result.language
        let comments1 := replaceFirst (fun c => c.id == comment.id)
          (fun c => { c with pii_masked := some pii_masked, lang := lang }) db.comments
        let clause_result := tools.clause_linker pii_masked comment.draft_id
        let clause_guesses := match clause_result with
          | some cr => cr.clause_candidates.getD []
          | none => []
        let text_normalized := ingest_result.normalized_text.getD pii_masked
        let processed1 := match existing_processed with
          | some _ => replaceFirst (fun p => p.comment_id == comment.id)
              (fun p => { p with text_normalized := text_normalized
                                 clause_guesses := clause_guesses }) db.processed
          | none => db.processed ++
              [{ comment_id := comment.id, text_normalized := text_normalized
                 clause_guesses := clause_guesses, embedding := ingest_result.embedding }]
        match tools.classify text_normalized lang with
        | none =>
          { outcome := .error comment_id "classify_failed" "", storage := db
            calls := ["ingest", "clause_linker", "classify"] }
        | some classify_result =>
          let confidence := classify_result.confidence.getD 0
          let predictions1 :=
            if (db.predictions.find? (fun p => p.comment_id == comment.id)).isSome then
              replaceFirst (fun p => p.comment_id == comment.id)
                (fun p => { p with
                  sentiment_label := classify_result.sentiment_label
                  sentiment_score := classify_result.sentiment_score
                  sentiment_intensity := classify_result.sentiment_intensity
                  stance := classify_result.stance
                  aspects := classify_result.aspects.getD []
                  confidence := confidence
                  model_version := classify_result.model_version.getD "unknown"
                  ci_low := classify_result.ci_low
                  ci_high := classify_result.ci_high }) db.predictions
            else db.predictions ++
              [{ comment_id := comment.id
                 sentiment_label := classify_result.sentiment_label
                 sentiment_score := classify_result.sentiment_score
                 sentiment_intensity := classify_result.sentiment_intensity
                 stance := classify_result.stance
                 aspects := classify_result.aspects.getD []
                 confidence := confidence
                 model_version := classify_result.model_version.getD "unknown"
                 ci_low := classify_result.ci_low
                 ci_high := classify_result.ci_high }]
          let audits1 :=
            if confidence < confidence_threshold then
              db.audits ++
                [{ entity := "comment", entity_id := comment_id
                   change_type := "low_confidence"
                   change_confidence := confidence
                   change_threshold := confidence_threshold
                   user_id := "system" }]
            else db.audits
          let do_summarize := confidence_threshold ≤ confidence ∨ force_reprocess = true
          let summaries1 :=
            if do_summarize then
              match tools.summarize text_normalized clause_guesses.head? with
              | some summary_result =>
                if (db.summaries.find? (fun s => s.comment_id == comment.id)).isSome then
                  replaceFirst (fun s => s.comment_id == comment.id)
                    (fun s => { s with
                      summary_text := summary_result.summary
                      confidence := summary_result.confidence.getD 0
                      model_version := summary_result.model_version.getD "unknown" }) db.summaries
                else db.summaries ++
                  [{ comment_id := comment.id
                     summary_text := summary_result.summary
                     confidence := summary_result.confidence.getD 0
                     model_version := summary_result.model_version.getD "unknown" }]
              | none => db.summaries
            else db.summaries
          { outcome := .success comment_id confidence classify_result.sentiment_label
              classify_result.stance clause_guesses
            storage := { comments := comments1, processed := processed1
                         predictions := predictions1, summaries := summaries1
                         audits := audits1 }
            calls := ["ingest", "clause_linker", "classify"] ++
              (if do_summarize then ["summarize"] else []) }

/-! ## Helper lemmas about the sorting and scoring primitives -/

theorem mem_insertDesc {x a : ClauseCandidate} {l : List ClauseCandidate} :
    a ∈ insertDesc x l ↔ a = x ∨ a ∈ l := by
  induction l with
  | nil => simp [insertDesc]
  | cons y ys ih =>
    simp only [insertDesc]
    split
    · simp only [List.mem_cons, ih]
      tauto
    · simp only [List.mem_cons]

theorem mem_sortDesc {a : ClauseCandidate} {l : List ClauseCandidate} :
    a ∈ sortDesc l ↔ a ∈ l := by
  induction l with
  | nil => simp [sortDesc]
  | cons y ys ih => simp [sortDesc, mem_insertDesc, ih]

theorem length_insertDesc (x : ClauseCandidate) (l : List ClauseCandidate) :
    (insertDesc x l).length = l.length + 1 := by
  induction l with
  | nil => simp [insertDesc]
  | cons y ys ih =>
    simp only [insertDesc]
    split
    · simp [ih]
    · simp

theorem length_sortDesc (l : List ClauseCandidate) : (sortDesc l).length = l.length := by
  induction l with
  | nil => simp [sortDesc]
  | cons y ys ih => simp [sortDesc, length_insertDesc, ih]

theorem pairwise_insertDesc {x : ClauseCandidate} {l : List ClauseCandidate}
    (h : l.Pairwise (fun a b => b.similarity_score ≤ a.similarity_score)) :
    (insertDesc x l).Pairwise (fun a b => b.similarity_score ≤ a.similarity_score) := by
  induction l with
  | nil => simp [insertDesc]
  | cons y ys ih =>
    rcases List.pairwise_cons.mp h with ⟨hy, hys⟩
    simp only [insertDesc]
    split
    · rename_i hlt
      refine List.pairwise_cons.mpr ⟨?_, ih hys⟩
      intro b hb
      rcases mem_insertDesc.mp hb with rfl | hb
      · exact le_of_lt hlt
      · exact hy b hb
    · rename_i hnlt
      refine List.pairwise_cons.mpr ⟨?_, h⟩
      intro b hb
      rcases List.mem_cons.mp hb with rfl | hb
      · exact not_lt.mp hnlt
      · exact le_trans (hy b hb) (not_lt.mp hnlt)

theorem pairwise_sortDesc (l : List ClauseCandidate) :
    (sortDesc l).Pairwise (fun a b => b.similarity_score ≤ a.similarity_score) := by
  induction l with
  | nil => simp [sortDesc]
  | cons y ys ih => exact pairwise_insertDesc ih

theorem foldl_max_le {l : List ClauseCandidate} {a b : ℚ} (ha : a ≤ b)
    (hl : ∀ x ∈ l, x.similarity_score ≤ b) :
    l.foldl (fun m x => max m x.similarity_score) a ≤ b := by
  induction l generalizing a with
  | nil => simpa using ha
  | cons y ys ih =>
    simp only [List.foldl_cons]
    exact ih (max_le ha (hl y (by simp))) (fun x hx => hl x (by simp [hx]))

theorem le_foldl_max {l : List ClauseCandidate} {a : ℚ} :
    a ≤ l.foldl (fun m x => max m x.similarity_score) a := by
  induction l generalizing a with
  | nil => simp
  | cons y ys ih =>
    simp only [List.foldl_cons]
    exact le_trans (le_max_left _ _) ih

theorem pyMaxScore_le {l : List ClauseCandidate} {b : ℚ} (hb : 0 ≤ b)
    (hl : ∀ x ∈ l, x.similarity_score ≤ b) : pyMaxScore l ≤ b := by
  cases l with
  | nil => simpa [pyMaxScore] using hb
  | cons c cs =>
    exact foldl_max_le (hl c (by simp)) (fun x hx => hl x (by simp [hx]))

theorem pyMaxScore_all_one {l : List ClauseCandidate} (hne : l ≠ [])
    (hl : ∀ x ∈ l, x.similarity_score = 1) : pyMaxScore l = 1 := by
  cases l with
  | nil => exact absurd rfl hne
  | cons c cs =>
    have h1 : c.similarity_score = 1 := hl c (by simp)
    simp only [pyMaxScore, h1]
    exact le_antisymm
      (foldl_max_le le_rfl (fun x hx => le_of_eq (hl x (by simp [hx]))))
      le_foldl_max

theorem mem_exactCandidates {mentions : List String} {clauses : List Clause}
    {cand : ClauseCandidate} :
    cand ∈ exactCandidates mentions clauses ↔
      ∃ m, m ∈ mentions ∧ ∃ c, c ∈ clauses ∧ refMatch m c = true ∧ cand = mkExactCandidate c := by
  simp only [exactCandidates, List.mem_flatMap, List.mem_filterMap]
  constructor
  · rintro ⟨m, hm, c, hc, hsome⟩
    by_cases hr : refMatch m c
    · simp only [hr, if_true] at hsome
      exact ⟨m, hm, c, hc, hr, (Option.some_inj.mp hsome).symm⟩
    · simp [hr] at hsome
  · rintro ⟨m, hm, c, hc, hr, rfl⟩
    exact ⟨m, hm, c, hc, by simp [hr]⟩

theorem exactCandidates_score_one {mentions : List String} {clauses : List Clause}
    {cand : ClauseCandidate} (h : cand ∈ exactCandidates mentions clauses) :
    cand.similarity_score = 1 ∧ cand.match_type = "exact" := by
  rcases mem_exactCandidates.mp h with ⟨m, _, c, _, _, rfl⟩
  exact ⟨rfl, rfl⟩

theorem semantic_score_le_one {env : LinkerEnv} {t : String} {cs : List Clause}
    {cand : ClauseCandidate} (hcos : ∀ q e, env.cosSim q e ≤ 1)
    (h : cand ∈ semanticSimilaritySearch env t cs) : cand.similarity_score ≤ 1 := by
  simp only [semanticSimilaritySearch] at h
  split at h
  · simp at h
  · split at h
    · simp at h
    · rename_i q hq
      have h2 := mem_sortDesc.mp (List.take_subset _ _ h)
      rcases List.mem_filterMap.mp h2 with ⟨c, _, hsome⟩
      cases hemb : c.embedding with
      | none => simp [hemb] at hsome
      | some e =>
        simp only [hemb] at hsome
        split at hsome
        · simp at hsome
        · split at hsome
          · rcases Option.some_inj.mp hsome with rfl
            exact hcos q e
          · simp at hsome

theorem fuzzyCandidate_spec {qw : List String} {c : Clause} {cand : ClauseCandidate}
    (h : fuzzyCandidate qw c = some cand) :
    cand.clause_ref = c.ref ∧ cand.match_type = "fuzzy" ∧
    mkRat 1 10 < cand.similarity_score ∧ cand.similarity_score ≤ 1 := by
  simp only [fuzzyCandidate] at h
  split at h
  · rename_i huni
    split at h
    · rename_i hj
      rcases Option.some_inj.mp h with rfl
      refine ⟨rfl, rfl, hj, ?_⟩
      have hinter : (qw.filter (fun w => w ∈ pySetWords c.text)).length ≤
          (qw ++ (pySetWords c.text).filter (fun w => w ∉ qw)).length := by
        simp only [List.length_append]
        exact le_trans (List.length_filter_le _ _) (Nat.le_add_right _ _)
      have huni2 : (0 : ℚ) <
          (((qw ++ (pySetWords c.text).filter (fun w => w ∉ qw)).length : ℤ) : ℚ) := by
        exact_mod_cast huni
      rw [Rat.mkRat_eq_divInt, Rat.divInt_eq_div, div_le_one huni2]
      exact_mod_cast hinter
    · exact absurd h (by simp)
  · exact absurd h (by simp)

theorem mem_fuzzyTextMatching {t : String} {cs : List Clause} {cand : ClauseCandidate}
    (h : cand ∈ fuzzyTextMatching t cs) :
    ∃ c, c ∈ cs ∧ fuzzyCandidate (pySetWords t) c = some cand := by
  simp only [fuzzyTextMatching] at h
  exact List.mem_filterMap.mp (mem_sortDesc.mp (List.take_subset _ _ h))

theorem mem_replaceFirst_of_find? {α : Type} {p : α → Bool} {f : α → α} {l : List α} {x : α}
    (h : l.find? p = some x) : f x ∈ replaceFirst p f l := by
  induction l with
  | nil => simp [List.find?] at h
  | cons y ys ih =>
    by_cases hy : p y
    · rw [List.find?_cons_of_pos _ hy] at h
      rcases Option.some_inj.mp h with rfl
      simp [replaceFirst, hy]
    · rw [List.find?_cons_of_neg _ hy] at h
      simp only [replaceFirst, hy, if_neg, Bool.false_eq_true, if_false, List.mem_cons]
      exact Or.inr (ih h)

/-- Shared helper: with an empty clause list the Linker returns the empty
response before any matching tier runs. -/
theorem linkRun_of_clauses_nil (env : LinkerEnv) (text draft_id : String)
    (h : getDraftClauses env draft_id = []) :
    linkRun env text draft_id =
      { response := { clause_candidates := [], detailed_matches := [], confidence := 0 }
        directMentions := findDirectMentions text, clauses := []
        exactCands := [], semanticRan := false, semanticCands := []
        fuzzyRan := false, fuzzyCands := [] } := by
  simp only [linkRun, h]
  simp

/-! ## Fixtures for witnesses and counterexamples -/

/-- A clause whose text is plain words (no digits, so no direct mentions). -/
def clauseR1 : Clause := { ref := "Rule 1", text := "thirty day deadline", embedding := some [1] }

/-- Linker environment: draft with no clauses. -/
def envEmptyClauses : LinkerEnv :=
  { modelLoaded := false, encode := fun _ => .error "down",
    cosSim := fun _ _ => 0, dbClauses := fun _ => .ok [] }

/-- Linker environment: the clause read raises. -/
def envDbFail : LinkerEnv :=
  { modelLoaded := true, encode := fun _ => .ok [1],
    cosSim := fun _ _ => 0, dbClauses := fun _ => .error "db down" }

/-- Linker environment: the model loaded but `encode` raises; one clause that
overlaps the test text word-for-word. -/
def envEncodeFail : LinkerEnv :=
  { modelLoaded := true, encode := fun _ => .error "boom",
    cosSim := fun _ _ => 0, dbClauses := fun _ => .ok [clauseR1] }

/-- Claim C7: for every input text, if the draft's clause set is empty the
Linker returns an empty candidate list with confidence 0.0 as a normal
(non-error) outcome, and no matching tier runs. -/
theorem c7_empty_clause_set (env : LinkerEnv) (text draft_id : String)
    (h : getDraftClauses env draft_id = []) :
    linkRun env text draft_id =
      { response := { clause_candidates := [], detailed_matches := [], confidence := 0 }
        directMentions := findDirectMentions text, clauses := []
        exactCands := [], semanticRan := false, semanticCands := []
        fuzzyRan := false, fuzzyCands := [] } :=
  linkRun_of_clauses_nil env text draft_id h

/-- Witness for C7 at a concrete environment and text. -/
theorem c7_empty_clause_set_witness :
    getDraftClauses envEmptyClauses "d1" = [] ∧
    linkRun envEmptyClauses "Section 3 is too strict" "d1" =
      { response := { clause_candidates := [], detailed_matches := [], confidence := 0 }
        directMentions := findDirectMentions "Section 3 is too strict", clauses := []
        exactCands := [], semanticRan := false, semanticCands := []
        fuzzyRan := false, fuzzyCands := [] } :=
  ⟨rfl, c7_empty_clause_set envEmptyClauses "Section 3 is too strict" "d1" rfl⟩

/-- Claim C10 (amended): the Linker's internal failures never escape, but
only a clause-read failure yields the empty no-match response; an embedding
(`encode`) failure merely empties the semantic tier, after which the fuzzy
tier can still produce candidates (see the counterexample). -/
theorem c10_internal_failures_contained (env : LinkerEnv) (text draft_id : String) :
    (∀ e, env.dbClauses draft_id = .error e →
      linkCommentToClauses env text draft_id =
        { clause_candidates := [], detailed_matches := [], confidence := 0 }) ∧
    (∀ e, env.encode text = .error e → (linkRun env text draft_id).semanticCands = []) := by
  constructor
  · intro e he
    have hg : getDraftClauses env draft_id = [] := by simp [getDraftClauses, he]
    rw [linkCommentToClauses, linkRun_of_clauses_nil env text draft_id hg]
  · intro e he
    by_cases hg : getDraftClauses env draft_id = []
    · rw [linkRun_of_clauses_nil env text draft_id hg]
    · simp only [linkRun, if_neg hg]
      split
      · simp [semanticSimilaritySearch, he]
      · rfl

/-- Witness for C10: both failure modes at concrete environments. -/
theorem c10_internal_failures_contained_witness :
    (envDbFail.dbClauses "d1" = .error "db down" ∧
      linkCommentToClauses envDbFail "thirty day deadline" "d1" =
        { clause_candidates := [], detailed_matches := [], confidence := 0 }) ∧
    (envEncodeFail.encode "thirty day deadline" = .error "boom" ∧
      (linkRun envEncodeFail "thirty day deadline" "d1").semanticCands = []) :=
  ⟨⟨rfl, (c10_internal_failures_contained envDbFail "thirty day deadline" "d1").1 "db down" rfl⟩,
   ⟨rfl, (c10_internal_failures_contained envEncodeFail "thirty day deadline" "d1").2 "boom" rfl⟩⟩

/-- Counterexample to C10 as stated: with a failing `encode` (an internal
embedding exception, caught inside the semantic tier) the Linker's result is
*not* the empty no-match shape — the fuzzy tier still runs and returns a
candidate with full confidence. -/
theorem c10_counterexample :
    envEncodeFail.encode "thirty day deadline" = .error "boom" ∧
    (linkCommentToClauses envEncodeFail "thirty day deadline" "d1").clause_candidates = ["Rule 1"] ∧
    (linkCommentToClauses envEncodeFail "thirty day deadline" "d1").confidence = 1 := by
  refine ⟨rfl, ?_, ?_⟩ <;> decide

/-- A draft clause set and text for the C5 witness: the comment names
`Rule 8(2)` explicitly and the clause set stores that ref. -/
def clausesC5 : List Clause :=
  [{ ref := "Rule 8(2)", text := "Filing deadline shall be 30 days", embedding := some [1] },
   { ref := "Section 9", text := "Penalties for late filing", embedding := some [2] }]

/-- Linker environment for the C5 witness. -/
def envC5 : LinkerEnv :=
  { modelLoaded := true, encode := fun _ => .ok [1],
    cosSim := fun _ _ => 1, dbClauses := fun _ => .ok clausesC5 }

/-- Claim C5: if the direct-mention tier extracts at least one reference that
matches some clause ref (case-insensitive substring in either direction), the
Linker's returned candidates all score 1.0 and are tagged `exact`, the overall
confidence is 1.0, the semantic tier is not invoked, and the fuzzy tier is not
invoked (its trigger fails because the best score, 1.0, is not below 0.5);
every returned candidate is an exact-tier match of some mentioned clause, and
every matched clause contributes an exact-tier candidate (the response then
caps candidates and refs at `max_candidates = 5`). -/
theorem c5_direct_mention_short_circuit (env : LinkerEnv) (text draft_id : String)
    (hm : ∃ m, m ∈ findDirectMentions text ∧
      ∃ c, c ∈ getDraftClauses env draft_id ∧ refMatch m c = true) :
    (linkRun env text draft_id).semanticRan = false ∧
    (linkRun env text draft_id).fuzzyRan = false ∧
    (linkRun env text draft_id).response.confidence = 1 ∧
    (linkRun env text draft_id).response.detailed_matches ≠ [] ∧
    (∀ cand ∈ (linkRun env text draft_id).response.detailed_matches,
      cand.similarity_score = 1 ∧ cand.match_type = "exact") ∧
    (∀ cand ∈ (linkRun env text draft_id).response.detailed_matches,
      ∃ c, c ∈ getDraftClauses env draft_id ∧ cand = mkExactCandidate c ∧
        ∃ m, m ∈ findDirectMentions text ∧ refMatch m c = true) ∧
    (∀ c2 ∈ getDraftClauses env draft_id,
      (∃ m2, m2 ∈ findDirectMentions text ∧ refMatch m2 c2 = true) →
      mkExactCandidate c2 ∈ (linkRun env text draft_id).exactCands) := by
  rcases hm with ⟨m, hm, c, hc, hr⟩
  have hclauses : getDraftClauses env draft_id ≠ [] := by
    intro h0
    rw [h0] at hc
    exact absurd hc (List.not_mem_nil c)
  have hex : mkExactCandidate c ∈
      exactCandidates (findDirectMentions text) (getDraftClauses env draft_id) :=
    mem_exactCandidates.mpr ⟨m, hm, c, hc, hr, rfl⟩
  have hexne : exactCandidates (findDirectMentions text) (getDraftClauses env draft_id) ≠ [] :=
    List.ne_nil_of_mem hex
  have hexEmpty :
      (exactCandidates (findDirectMentions text) (getDraftClauses env draft_id)).isEmpty = false := by
    simpa [List.isEmpty_iff] using hexne
  have hall1 : ∀ x ∈ exactCandidates (findDirectMentions text) (getDraftClauses env draft_id),
      x.similarity_score = 1 := fun x hx => (exactCandidates_score_one hx).1
  have hmax : pyMaxScore (exactCandidates (findDirectMentions text) (getDraftClauses env draft_id))
      = 1 := pyMaxScore_all_one hexne hall1
  have hhalf : ¬(1 : ℚ) < mkRat 1 2 := by
    rw [Rat.mkRat_eq_divInt, Rat.divInt_eq_div]
    norm_num
  have hdec : decide ((1 : ℚ) < mkRat 1 2) = false := decide_eq_false hhalf
  simp only [linkRun, if_neg hclauses, hexEmpty, Bool.false_eq_true, if_false,
    List.append_nil, hmax, Bool.false_or, hdec]
  refine ⟨trivial, trivial, by simp, ?_, ?_, ?_, ?_⟩
  · simp [List.take_eq_nil_iff, hexne]
  · intro cand hcand
    exact exactCandidates_score_one (List.take_subset _ _ hcand)
  · intro cand hcand
    rcases mem_exactCandidates.mp (List.take_subset _ _ hcand) with ⟨m2, hm2, c2, hc2, hr2, rfl⟩
    exact ⟨c2, hc2, rfl, m2, hm2, hr2⟩
  · intro c2 hc2 hm2
    rcases hm2 with ⟨m2, hm2, hr2⟩
    exact mem_exactCandidates.mpr ⟨m2, hm2, c2, hc2, hr2, rfl⟩

/-- Witness for C5: the spec's own example, a comment naming `Rule 8(2)`
against a clause set storing that ref. -/
theorem c5_direct_mention_short_circuit_witness :
    (∃ m, m ∈ findDirectMentions "The deadline in Rule 8(2) is too short" ∧
      ∃ c, c ∈ getDraftClauses envC5 "d1" ∧ refMatch m c = true) ∧
    (linkRun envC5 "The deadline in Rule 8(2) is too short" "d1").semanticRan = false ∧
    (linkRun envC5 "The deadline in Rule 8(2) is too short" "d1").fuzzyRan = false ∧
    (linkRun envC5 "The deadline in Rule 8(2) is too short" "d1").response.confidence = 1 :=
  ⟨by decide,
   (c5_direct_mention_short_circuit envC5 "The deadline in Rule 8(2) is too short" "d1"
     (by decide)).1,
   (c5_direct_mention_short_circuit envC5 "The deadline in Rule 8(2) is too short" "d1"
     (by decide)).2.1,
   (c5_direct_mention_short_circuit envC5 "The deadline in Rule 8(2) is too short" "d1"
     (by decide)).2.2.1⟩

/-- Claim C6: the fuzzy tier runs exactly when the exact and semantic tiers
together produced no candidates or the best score so far is below 0.5; it
keeps clauses whose word-level Jaccard similarity with the comment exceeds
0.1, tagged `fuzzy`, sorted descending and capped at 5 (and below the cap it
keeps *every* qualifying clause); the returned confidence is the maximum
individual candidate score across all tiers that ran, or 0.0 when no tier
produced a candidate.  The hypothesis bounds the cosine-similarity oracle by
1, which holds of the real cosine. -/
theorem c6_fuzzy_tier (env : LinkerEnv) (text draft_id : String)
    (hcs : getDraftClauses env draft_id ≠ [])
    (hcos : ∀ q e, env.cosSim q e ≤ 1) :
    ((linkRun env text draft_id).fuzzyRan = true ↔
      ((linkRun env text draft_id).exactCands ++ (linkRun env text draft_id).semanticCands = [] ∨
        pyMaxScore ((linkRun env text draft_id).exactCands ++
          (linkRun env text draft_id).semanticCands) < mkRat 1 2)) ∧
    (∀ cand ∈ (linkRun env text draft_id).fuzzyCands,
      ∃ c, c ∈ getDraftClauses env draft_id ∧
        fuzzyCandidate (pySetWords text) c = some cand) ∧
    (∀ cand ∈ (linkRun env text draft_id).fuzzyCands,
      cand.match_type = "fuzzy" ∧ mkRat 1 10 < cand.similarity_score) ∧
    ((linkRun env text draft_id).fuzzyCands.Pairwise
      (fun a b => b.similarity_score ≤ a.similarity_score)) ∧
    ((linkRun env text draft_id).fuzzyCands.length ≤ 5) ∧
    ((linkRun env text draft_id).fuzzyCands.length < 5 →
      (linkRun env text draft_id).fuzzyRan = true →
      ∀ c ∈ getDraftClauses env draft_id, ∀ cand0,
        fuzzyCandidate (pySetWords text) c = some cand0 →
        cand0 ∈ (linkRun env text draft_id).fuzzyCands) ∧
    ((linkRun env text draft_id).response.confidence =
      if ((linkRun env text draft_id).exactCands ++ (linkRun env text draft_id).semanticCands) ++
          (linkRun env text draft_id).fuzzyCands = [] then 0
      else pyMaxScore (((linkRun env text draft_id).exactCands ++
        (linkRun env text draft_id).semanticCands) ++ (linkRun env text draft_id).fuzzyCands)) := by
  simp only [linkRun, if_neg hcs]
  have hFZmem : ∀ (b : Bool) (cand : ClauseCandidate),
      cand ∈ (if b = true then fuzzyTextMatching text (getDraftClauses env draft_id) else []) →
      cand ∈ fuzzyTextMatching text (getDraftClauses env draft_id) := by
    intro b cand h
    split at h
    · exact h
    · exact absurd h (List.not_mem_nil cand)
  refine ⟨?_, ?_, ?_, ?_, ?_, ?_, ?_⟩
  · simp [Bool.or_eq_true, List.isEmpty_iff, decide_eq_true_iff]
  · intro cand hcand
    exact mem_fuzzyTextMatching (hFZmem _ cand hcand)
  · intro cand hcand
    rcases mem_fuzzyTextMatching (hFZmem _ cand hcand) with ⟨c, _, hc⟩
    rcases fuzzyCandidate_spec hc with ⟨_, h2, h3, _⟩
    exact ⟨h2, h3⟩
  · have hpair : ∀ (b : Bool), List.Pairwise
        (fun a c => c.similarity_score ≤ a.similarity_score)
        (if b = true then fuzzyTextMatching text (getDraftClauses env draft_id) else []) := by
      intro b
      split
      · simp only [fuzzyTextMatching]
        exact List.Pairwise.sublist (List.take_sublist _ _) (pairwise_sortDesc _)
      · simp
    exact hpair _
  · have hlen5 : ∀ (b : Bool),
        (if b = true then fuzzyTextMatching text (getDraftClauses env draft_id) else []).length
          ≤ 5 := by
      intro b
      split
      · simp only [fuzzyTextMatching, List.length_take, length_sortDesc]
        omega
      · simp
    exact hlen5 _
  · intro hlen hrun c hc cand0 hf0
    rw [if_pos hrun] at hlen ⊢
    simp only [fuzzyTextMatching, List.length_take, length_sortDesc] at hlen
    simp only [fuzzyTextMatching]
    have hmem : cand0 ∈
        (getDraftClauses env draft_id).filterMap (fuzzyCandidate (pySetWords text)) :=
      List.mem_filterMap.mpr ⟨c, hc, hf0⟩
    rw [List.take_of_length_le (by rw [length_sortDesc]; omega)]
    exact mem_sortDesc.mpr hmem
  · have hgen : ∀ (L : List ClauseCandidate), (∀ x ∈ L, x.similarity_score ≤ 1) →
        (if L.isEmpty = true then (0 : ℚ) else min (pyMaxScore L) 1) =
        (if L = [] then (0 : ℚ) else pyMaxScore L) := by
      intro L hall
      by_cases h : L = []
      · simp [h]
      · have h2 : L.isEmpty = false := by simpa [List.isEmpty_iff] using h
        rw [if_neg h, h2]
        simp only [Bool.false_eq_true, if_false]
        exact min_eq_left (pyMaxScore_le (by norm_num) hall)
    refine hgen _ ?_
    intro x hx
    rcases List.mem_append.mp hx with hx1 | hxF
    · rcases List.mem_append.mp hx1 with hxE | hxS
      · exact le_of_eq (exactCandidates_score_one hxE).1
      · split at hxS
        · exact semantic_score_le_one hcos hxS
        · exact absurd hxS (List.not_mem_nil x)
    · rcases mem_fuzzyTextMatching (hFZmem _ x hxF) with ⟨c, _, hc⟩
      exact (fuzzyCandidate_spec hc).2.2.2

/-- Witness for C6: no direct mentions, the model errors on `encode`, and the
one clause overlaps the comment word-for-word, so the fuzzy tier fires. -/
theorem c6_fuzzy_tier_witness :
    getDraftClauses envEncodeFail "d1" ≠ [] ∧
    ((linkRun envEncodeFail "thirty day deadline" "d1").fuzzyRan = true ↔
      ((linkRun envEncodeFail "thirty day deadline" "d1").exactCands ++
          (linkRun envEncodeFail "thirty day deadline" "d1").semanticCands = [] ∨
        pyMaxScore ((linkRun envEncodeFail "thirty day deadline" "d1").exactCands ++
          (linkRun envEncodeFail "thirty day deadline" "d1").semanticCands) < mkRat 1 2)) ∧
    (linkRun envEncodeFail "thirty day deadline" "d1").fuzzyCands.length ≤ 5 :=
  ⟨by decide,
   (c6_fuzzy_tier envEncodeFail "thirty day deadline" "d1" (by decide)
     (fun q e => by simp [envEncodeFail])).1,
   (c6_fuzzy_tier envEncodeFail "thirty day deadline" "d1" (by decide)
     (fun q e => by simp [envEncodeFail])).2.2.2.2.1⟩

/-! ## Coordinator fixtures -/

/-- A raw comment row. -/
def comment0 : CommentRaw :=
  { id := "c1", draft_id := "d1", text_raw := "hello", lang := none, pii_masked := none }

/-- A successful ingest payload. -/
def ir0 : IngestResult :=
  { pii_masked := some "masked hello", language := some "en",
    normalized_text := some "norm hello", embedding := some [1] }

/-- A successful classify payload with the given confidence. -/
def crOf (q : ℚ) : ClassifyResult :=
  { sentiment_label := some "neg", sentiment_score := none, sentiment_intensity := none,
    stance := some "oppose", aspects := some ["a"], confidence := some q,
    model_version := some "m1", ci_low := none, ci_high := none }

/-- Tool clients in which every call succeeds (classify at confidence `q`). -/
def toolsHappy (q : ℚ) : Tools :=
  { ingest := fun _ => some ir0
    clause_linker := fun _ _ => some { clause_candidates := some ["Rule 8(2)"] }
    classify := fun _ _ => some (crOf q)
    summarize := fun _ _ => some { summary := some "sum", confidence := some 1,
                                   model_version := some "v" } }

/-- Tools whose classify call fails. -/
def toolsClassifyFail : Tools := { toolsHappy 1 with classify := fun _ _ => none }

/-- Tools whose summarize call fails. -/
def toolsSummFail (q : ℚ) : Tools := { toolsHappy q with summarize := fun _ _ => none }

/-- Tools whose clause-linker call fails. -/
def toolsLinkFail (q : ℚ) : Tools := { toolsHappy q with clause_linker := fun _ _ => none }

/-- Storage holding one raw comment and nothing else. -/
def dbOne : Storage :=
  { comments := [comment0], processed := [], predictions := [], summaries := [], audits := [] }

/-- Storage in which the comment already has a CommentProcessed row. -/
def dbProcessed : Storage :=
  { comments := [comment0]
    processed := [{ comment_id := "c1", text_normalized := "old", clause_guesses := ["X"],
                    embedding := some [2] }]
    predictions := [], summaries := [], audits := [] }

/-! ## Claims about the coordinator -/

/-- Claim C1: when a CommentProcessed row already exists (for a comment that
exists, per the one-to-one data-model invariant) and `forceReprocess` is
false, `process_comment` returns `already_processed` without invoking any tool
client and with the durable storage unchanged. -/
theorem c1_already_processed_short_circuit (threshold : ℚ) (tools : Tools) (db : Storage)
    (comment_id : String) (comment : CommentRaw)
    (hfind : db.comments.find? (fun c => c.id == comment_id) = some comment)
    (hex : (db.processed.find? (fun p => p.comment_id == comment.id)).isSome = true) :
    processComment threshold tools db comment_id false =
      { outcome := .already_processed comment_id, storage := db, calls := [] } := by
  simp [processComment, hfind, hex]

/-- Witness for C1. -/
theorem c1_already_processed_short_circuit_witness :
    dbProcessed.comments.find? (fun c => c.id == "c1") = some comment0 ∧
    (dbProcessed.processed.find? (fun p => p.comment_id == comment0.id)).isSome = true ∧
    processComment (mkRat 7 10) (toolsHappy 1) dbProcessed "c1" false =
      { outcome := .already_processed "c1", storage := dbProcessed, calls := [] } :=
  ⟨by decide, by decide,
   c1_already_processed_short_circuit (mkRat 7 10) (toolsHappy 1) dbProcessed "c1" comment0
     (by decide) (by decide)⟩

/-- Claim C2 (amended): when ingest succeeds and classify fails, the run
returns `Error{classify_failed}` — but the whole session is rolled back, so
the CommentProcessed upsert of step 4 does *not* survive: the durable storage
is exactly the initial storage. -/
theorem c2_classify_failure_rolls_back (threshold : ℚ) (tools : Tools) (db : Storage)
    (comment_id : String) (force : Bool) (comment : CommentRaw) (ir : IngestResult)
    (hfind : db.comments.find? (fun c => c.id == comment_id) = some comment)
    (hskip : ¬((db.processed.find? (fun p => p.comment_id == comment.id)).isSome = true ∧
      ¬(force = true)))
    (hing : tools.ingest comment.text_raw = some ir)
    (hcls : tools.classify (ir.normalized_text.getD (ir.pii_masked.getD comment.text_raw))
      ir.language = none) :
    processComment threshold tools db comment_id force =
      { outcome := .error comment_id "classify_failed" "", storage := db
        calls := ["ingest", "clause_linker", "classify"] } := by
  simp only [processComment, hfind]
  rw [if_neg hskip]
  simp only [hing, hcls]

/-- Witness for C2 (amended). -/
theorem c2_classify_failure_rolls_back_witness :
    toolsClassifyFail.classify (ir0.normalized_text.getD (ir0.pii_masked.getD comment0.text_raw))
      ir0.language = none ∧
    processComment (mkRat 7 10) toolsClassifyFail dbOne "c1" false =
      { outcome := .error "c1" "classify_failed" "", storage := dbOne
        calls := ["ingest", "clause_linker", "classify"] } :=
  ⟨rfl,
   c2_classify_failure_rolls_back (mkRat 7 10) toolsClassifyFail dbOne "c1" false comment0 ir0
     (by decide) (by decide) (by decide) rfl⟩

/-- Counterexample to C2 as stated: starting from a storage with no
CommentProcessed row, a classify failure leaves storage without any
CommentProcessed row (the step-4 upsert was rolled back with the rest of the
uncommitted transaction), and a subsequent `Process(id, forceReprocess=false)`
does not return `already_processed`. -/
theorem c2_counterexample :
    (processComment (mkRat 7 10) toolsClassifyFail dbOne "c1" false).outcome =
      .error "c1" "classify_failed" "" ∧
    (processComment (mkRat 7 10) toolsClassifyFail dbOne "c1" false).storage.processed = [] ∧
    (processComment (mkRat 7 10) toolsClassifyFail
        (processComment (mkRat 7 10) toolsClassifyFail dbOne "c1" false).storage
        "c1" false).outcome ≠ .already_processed "c1" := by
  refine ⟨rfl, rfl, ?_⟩
  decide

/-- Claim C8 (amended): for a comment id unknown to storage, the
`ValueError` raised inside the pipeline is caught by the generic handler, so
the outcome is an `Error` whose `error_type` is the *generic*
`processing_failed` (not a dedicated not-found type); only the `details`
string (`Comment {id} not found`) identifies the cause.  No tool is called
and storage is unchanged. -/
theorem c8_not_found_generic_error (threshold : ℚ) (tools : Tools) (db : Storage)
    (comment_id : String) (force : Bool)
    (hnone : db.comments.find? (fun c => c.id == comment_id) = none) :
    processComment threshold tools db comment_id force =
      { outcome := .error comment_id "processing_failed"
          ("Comment " ++ comment_id ++ " not found")
        storage := db, calls := [] } := by
  simp only [processComment, hnone]

/-- Witness for C8 (amended). -/
theorem c8_not_found_generic_error_witness :
    dbOne.comments.find? (fun c => c.id == "cX") = none ∧
    processComment (mkRat 7 10) (toolsHappy 1) dbOne "cX" false =
      { outcome := .error "cX" "processing_failed" "Comment cX not found"
        storage := dbOne, calls := [] } :=
  ⟨by decide,
   c8_not_found_generic_error (mkRat 7 10) (toolsHappy 1) dbOne "cX" false (by decide)⟩

/-- Counterexample to C8 as stated: the not-found outcome's `error_type` is
literally `"processing_failed"` — the same type as the generic stage-fatal
outcome the claim requires it to be distinguishable from. -/
theorem c8_counterexample :
    (processComment (mkRat 7 10) (toolsHappy 1) dbOne "cX" false).outcome =
      .error "cX" "processing_failed" "Comment cX not found" := by
  decide

/-- Claim C3: the quality gate passes on `confidence == threshold` (`≥`, not
`>`): no `low_confidence` audit is appended and summarization is attempted.
Strictly below the threshold, a `low_confidence` audit is appended, the run
still succeeds and persists the Prediction row, and — absent `forceReprocess`
— summarization is skipped. -/
theorem c3_quality_gate_boundary (threshold : ℚ) (tools : Tools) (db : Storage)
    (comment_id : String) (force : Bool) (comment : CommentRaw) (ir : IngestResult)
    (cr : ClassifyResult)
    (hfind : db.comments.find? (fun c => c.id == comment_id) = some comment)
    (hskip : ¬((db.processed.find? (fun p => p.comment_id == comment.id)).isSome = true ∧
      ¬(force = true)))
    (hing : tools.ingest comment.text_raw = some ir)
    (hcls : tools.classify (ir.normalized_text.getD (ir.pii_masked.getD comment.text_raw))
      ir.language = some cr) :
    (cr.confidence.getD 0 = threshold →
      (processComment threshold tools db comment_id force).storage.audits = db.audits ∧
      "summarize" ∈ (processComment threshold tools db comment_id force).calls) ∧
    (cr.confidence.getD 0 < threshold →
      (processComment threshold tools db comment_id force).storage.audits =
        db.audits ++ [{ entity := "comment", entity_id := comment_id
                        change_type := "low_confidence"
                        change_confidence := cr.confidence.getD 0
                        change_threshold := threshold, user_id := "system" }] ∧
      (∃ p, p ∈ (processComment threshold tools db comment_id force).storage.predictions ∧
        p.comment_id = comment.id ∧ p.confidence = cr.confidence.getD 0) ∧
      (∃ sl st cls, (processComment threshold tools db comment_id force).outcome =
        .success comment_id (cr.confidence.getD 0) sl st cls) ∧
      (force = false → "summarize" ∉ (processComment threshold tools db comment_id force).calls)) := by
  simp only [processComment, hfind]
  rw [if_neg hskip]
  simp only [hing, hcls]
  constructor
  · intro heq
    rw [heq]
    constructor
    · simp [lt_irrefl]
    · simp [le_refl]
  · intro hlt
    refine ⟨?_, ?_, ⟨_, _, _, rfl⟩, ?_⟩
    · simp [hlt]
    · by_cases hp : ((db.predictions.find? (fun p => p.comment_id == comment.id)).isSome = true)
      · rcases Option.isSome_iff_exists.mp hp with ⟨x, hx⟩
        have hpx : (x.comment_id == comment.id) = true :=
          List.find?_some (p := fun (p : Prediction) => p.comment_id == comment.id) hx
        have hkey : x.comment_id = comment.id := eq_of_beq hpx
        simp only [hp, if_true]
        exact ⟨_, mem_replaceFirst_of_find? hx, hkey, rfl⟩
      · simp only [hp, Bool.false_eq_true, if_false]
        exact ⟨_, List.mem_append.mpr (Or.inr (List.mem_singleton_self _)), rfl, rfl⟩
    · intro hf
      have hcond : ¬(threshold ≤ cr.confidence.getD 0 ∨ force = true) := by
        rw [hf]
        simp only [Bool.false_eq_true, or_false]
        exact not_le.mpr hlt
      rw [if_neg hcond]
      decide

/-- Witness for C3: one run at `confidence = threshold` (audit absent,
summarize attempted) and one at `confidence < threshold` with
`forceReprocess = false` (audit appended, summarize skipped). -/
theorem c3_quality_gate_boundary_witness :
    ((processComment (mkRat 7 10) (toolsHappy (mkRat 7 10)) dbOne "c1" false).storage.audits =
        dbOne.audits ∧
      "summarize" ∈ (processComment (mkRat 7 10) (toolsHappy (mkRat 7 10)) dbOne "c1" false).calls) ∧
    ("summarize" ∉ (processComment (mkRat 7 10) (toolsHappy (mkRat 6 10)) dbOne "c1" false).calls) :=
  ⟨(c3_quality_gate_boundary (mkRat 7 10) (toolsHappy (mkRat 7 10)) dbOne "c1" false comment0 ir0
      (crOf (mkRat 7 10)) (by decide) (by decide) (by decide) rfl).1 (by decide),
   ((c3_quality_gate_boundary (mkRat 7 10) (toolsHappy (mkRat 6 10)) dbOne "c1" false comment0 ir0
      (crOf (mkRat 6 10)) (by decide) (by decide) (by decide) rfl).2 (by decide)).2.2.2 rfl⟩

/-- Claim C4: summarization is attempted exactly when
`confidence ≥ threshold` or `forceReprocess`; when it is attempted and the
summarize tool fails, the failure is swallowed — no Summary row is written,
the other writes still commit (the CommentProcessed and Prediction rows are
in the final storage) and the outcome is `Success`. -/
theorem c4_summarize_gate_and_best_effort (threshold : ℚ) (tools : Tools) (db : Storage)
    (comment_id : String) (force : Bool) (comment : CommentRaw) (ir : IngestResult)
    (cr : ClassifyResult) (guesses : List String)
    (hfind : db.comments.find? (fun c => c.id == comment_id) = some comment)
    (hskip : ¬((db.processed.find? (fun p => p.comment_id == comment.id)).isSome = true ∧
      ¬(force = true)))
    (hing : tools.ingest comment.text_raw = some ir)
    (hguess : (match tools.clause_linker (ir.pii_masked.getD comment.text_raw) comment.draft_id with
      | some lr => lr.clause_candidates.getD []
      | none => []) = guesses)
    (hcls : tools.classify (ir.normalized_text.getD (ir.pii_masked.getD comment.text_raw))
      ir.language = some cr) :
    (("summarize" ∈ (processComment threshold tools db comment_id force).calls) ↔
      (threshold ≤ cr.confidence.getD 0 ∨ force = true)) ∧
    ((threshold ≤ cr.confidence.getD 0 ∨ force = true) →
      tools.summarize (ir.normalized_text.getD (ir.pii_masked.getD comment.text_raw))
        guesses.head? = none →
      (processComment threshold tools db comment_id force).storage.summaries = db.summaries ∧
      (processComment threshold tools db comment_id force).outcome =
        .success comment_id (cr.confidence.getD 0) cr.sentiment_label cr.stance guesses ∧
      (∃ p, p ∈ (processComment threshold tools db comment_id force).storage.predictions ∧
        p.comment_id = comment.id ∧ p.confidence = cr.confidence.getD 0) ∧
      (∃ pr, pr ∈ (processComment threshold tools db comment_id force).storage.processed ∧
        pr.comment_id = comment.id)) := by
  simp only [processComment, hfind]
  rw [if_neg hskip]
  simp only [hing, hguess, hcls]
  constructor
  · by_cases hd : (threshold ≤ cr.confidence.getD 0 ∨ force = true)
    · simp [hd]
    · simp [hd]
  · intro hd hsum
    simp only [if_pos hd, hsum]
    refine ⟨by trivial, by trivial, ?_, ?_⟩
    · by_cases hp : ((db.predictions.find? (fun p => p.comment_id == comment.id)).isSome = true)
      · rcases Option.isSome_iff_exists.mp hp with ⟨x, hx⟩
        have hpx : (x.comment_id == comment.id) = true :=
          List.find?_some (p := fun (p : Prediction) => p.comment_id == comment.id) hx
        have hkey : x.comment_id = comment.id := eq_of_beq hpx
        simp only [hp, if_true]
        exact ⟨_, mem_replaceFirst_of_find? hx, hkey, rfl⟩
      · simp only [hp, Bool.false_eq_true, if_false]
        exact ⟨_, List.mem_append.mpr (Or.inr (List.mem_singleton_self _)), rfl, rfl⟩
    · rcases hep : db.processed.find? (fun p => p.comment_id == comment.id) with _ | x
      · simp only [hep]
        exact ⟨_, List.mem_append.mpr (Or.inr (List.mem_singleton_self _)), rfl⟩
      · have hpx : (x.comment_id == comment.id) = true :=
        List.find?_some (p := fun (p : CommentProcessed) => p.comment_id == comment.id) hep
        have hkey : x.comment_id = comment.id := eq_of_beq hpx
        simp only [hep]
        exact ⟨_, mem_replaceFirst_of_find? hep, hkey⟩

/-- Witness for C4: `confidence = 0.8 ≥ 0.7`, summarize fails, run still
succeeds with no Summary row. -/
theorem c4_summarize_gate_and_best_effort_witness :
    ("summarize" ∈
      (processComment (mkRat 7 10) (toolsSummFail (mkRat 8 10)) dbOne "c1" false).calls) ∧
    (processComment (mkRat 7 10) (toolsSummFail (mkRat 8 10)) dbOne "c1" false).storage.summaries
      = dbOne.summaries ∧
    (processComment (mkRat 7 10) (toolsSummFail (mkRat 8 10)) dbOne "c1" false).outcome =
      .success "c1" (mkRat 8 10) (some "neg") (some "oppose") ["Rule 8(2)"] :=
  ⟨(c4_summarize_gate_and_best_effort (mkRat 7 10) (toolsSummFail (mkRat 8 10)) dbOne "c1" false
      comment0 ir0 (crOf (mkRat 8 10)) ["Rule 8(2)"] (by decide) (by decide) (by decide) rfl
      rfl).1.mpr (Or.inl (by decide)),
   ((c4_summarize_gate_and_best_effort (mkRat 7 10) (toolsSummFail (mkRat 8 10)) dbOne "c1" false
      comment0 ir0 (crOf (mkRat 8 10)) ["Rule 8(2)"] (by decide) (by decide) (by decide) rfl
      rfl).2 (Or.inl (by decide)) rfl).1,
   ((c4_summarize_gate_and_best_effort (mkRat 7 10) (toolsSummFail (mkRat 8 10)) dbOne "c1" false
      comment0 ir0 (crOf (mkRat 8 10)) ["Rule 8(2)"] (by decide) (by decide) (by decide) rfl
      rfl).2 (Or.inl (by decide)) rfl).2.1⟩

/-- Shared helper: a clause-linker failure is processed identically to a
successful clause-linker call that returns an empty candidate list. -/
theorem processComment_linker_none_eq_empty (threshold : ℚ) (tools : Tools) (db : Storage)
    (comment_id : String) (force : Bool) :
    processComment threshold { tools with clause_linker := fun _ _ => none } db comment_id force =
    processComment threshold
      { tools with clause_linker := fun _ _ => some { clause_candidates := some [] } }
      db comment_id force := rfl

/-- Claim C9: a failed clause-link call never aborts the run: it is treated
exactly as an empty candidate list (the two runs are equal for every storage
and every other tool behaviour), the CommentProcessed row is persisted with
`clauseGuesses = []`, and the run still completes with `Success` when the
remaining stages succeed. -/
theorem c9_linker_failure_treated_as_empty (threshold : ℚ) (tools : Tools) (db : Storage)
    (comment_id : String) (force : Bool) (comment : CommentRaw) (ir : IngestResult)
    (cr : ClassifyResult)
    (hfind : db.comments.find? (fun c => c.id == comment_id) = some comment)
    (hskip : ¬((db.processed.find? (fun p => p.comment_id == comment.id)).isSome = true ∧
      ¬(force = true)))
    (hing : tools.ingest comment.text_raw = some ir)
    (hlink : tools.clause_linker (ir.pii_masked.getD comment.text_raw) comment.draft_id = none)
    (hcls : tools.classify (ir.normalized_text.getD (ir.pii_masked.getD comment.text_raw))
      ir.language = some cr) :
    (processComment threshold tools db comment_id force).outcome =
      .success comment_id (cr.confidence.getD 0) cr.sentiment_label cr.stance [] ∧
    (∃ pr, pr ∈ (processComment threshold tools db comment_id force).storage.processed ∧
      pr.comment_id = comment.id ∧ pr.clause_guesses = []) ∧
    (∀ (db2 : Storage) (id2 : String) (force2 : Bool),
      processComment threshold { tools with clause_linker := fun _ _ => none } db2 id2 force2 =
      processComment threshold
        { tools with clause_linker := fun _ _ => some { clause_candidates := some [] } }
        db2 id2 force2) := by
  refine ⟨?_, ?_, fun db2 id2 force2 =>
    processComment_linker_none_eq_empty threshold tools db2 id2 force2⟩
  · simp only [processComment, hfind]
    rw [if_neg hskip]
    simp only [hing, hlink, hcls]
  · simp only [processComment, hfind]
    rw [if_neg hskip]
    simp only [hing, hlink, hcls]
    rcases hep : db.processed.find? (fun p => p.comment_id == comment.id) with _ | x
    · simp only [hep]
      exact ⟨_, List.mem_append.mpr (Or.inr (List.mem_singleton_self _)), rfl, rfl⟩
    · have hpx : (x.comment_id == comment.id) = true :=
        List.find?_some (p := fun (p : CommentProcessed) => p.comment_id == comment.id) hep
      have hkey : x.comment_id = comment.id := eq_of_beq hpx
      simp only [hep]
      exact ⟨_, mem_replaceFirst_of_find? hep, hkey, rfl⟩

/-- Witness for C9. -/
theorem c9_linker_failure_treated_as_empty_witness :
    (toolsLinkFail (mkRat 9 10)).clause_linker
      (ir0.pii_masked.getD comment0.text_raw) comment0.draft_id = none ∧
    (processComment (mkRat 7 10) (toolsLinkFail (mkRat 9 10)) dbOne "c1" false).outcome =
      .success "c1" (mkRat 9 10) (some "neg") (some "oppose") [] :=
  ⟨rfl,
   (c9_linker_failure_treated_as_empty (mkRat 7 10) (toolsLinkFail (mkRat 9 10)) dbOne "c1" false
     comment0 ir0 (crOf (mkRat 9 10)) (by decide) (by decide) (by decide) rfl rfl).1⟩

end NeetiManthan
